import Mathlib

/-!
# Danish energy analytics stack: a shallow embedding

This file embeds, in Lean, the data-shaping core of the Danish energy
analytics repository: the hourly rollup and three-way join of the ML
pipeline (`danish_energy_ml_pipeline.py`), the derived renewable
percentage, the data-quality battery and the transaction discipline of
the warehouse loader (`load_data_warehouse.py`), the extraction entry
points (`extract_energy_data.py`), and the high-price detection of the
quality assessment (`data_quality_assessment.py`).  Numeric columns are
embedded as exact rationals; where IEEE-754 special values (NaN,
infinities) are observable through pandas operations, a dedicated type
`PFloat` models them explicitly.
-/

/-- A pandas/NumPy float64 cell value, restricted to the observable
special values: an exact rational, NaN, `+inf` or `-inf`.  The rational
constructor models every ordinary finite value exactly. -/
inductive PFloat where
  | val (q : ℚ)
  | nan
  | inf
  | ninf
deriving DecidableEq

namespace PFloat

/-- IEEE-754 division as performed elementwise by a pandas Series
division: finite by finite-nonzero is exact division; `x / 0` is NaN for
`x = 0`, `+inf` for `x > 0` and `-inf` for `x < 0` (the denominator is a
positive zero); NaN propagates; a finite value over an infinity is 0. -/
def div : PFloat → PFloat → PFloat
  | val a, val b =>
      if b = 0 then (if a = 0 then nan else if 0 < a then inf else ninf)
      else val (a / b)
  | nan, _ => nan
  | val _, nan => nan
  | inf, nan => nan
  | ninf, nan => nan
  | inf, val b => if 0 ≤ b then inf else ninf
  | ninf, val b => if 0 ≤ b then ninf else inf
  | val _, inf => val 0
  | val _, ninf => val 0
  | inf, inf => nan
  | inf, ninf => nan
  | ninf, inf => nan
  | ninf, ninf => nan

/-- IEEE-754 multiplication as performed elementwise by pandas: NaN
propagates, an infinity times a nonzero finite value keeps the sign
rule, an infinity times zero is NaN. -/
def mul : PFloat → PFloat → PFloat
  | val a, val b => val (a * b)
  | nan, _ => nan
  | val _, nan => nan
  | inf, nan => nan
  | ninf, nan => nan
  | inf, val b => if b = 0 then nan else if 0 < b then inf else ninf
  | val a, inf => if a = 0 then nan else if 0 < a then inf else ninf
  | ninf, val b => if b = 0 then nan else if 0 < b then ninf else inf
  | val a, ninf => if a = 0 then nan else if 0 < a then ninf else inf
  | inf, inf => inf
  | inf, ninf => ninf
  | ninf, inf => ninf
  | ninf, ninf => inf

/-- `Series.fillna(y)`: replaces NaN by `y`; every other value, the
infinities included, is left unchanged. -/
def fillna : PFloat → ℚ → PFloat
  | nan, y => val y
  | x, _ => x

end PFloat

/-- `danish_energy_ml_pipeline.py`, `_engineer_features` line 226:
`df['renewable_percentage'] = (df['total_renewable_mwh'] /
df['consumption_mwh'] * 100).fillna(0)`, evaluated elementwise on one
joined record. -/
def renewable_percentage (total_renewable_mwh consumption_mwh : ℚ) : PFloat :=
  PFloat.fillna
    (PFloat.mul (PFloat.div (PFloat.val total_renewable_mwh) (PFloat.val consumption_mwh))
      (PFloat.val 100)) 0

/-- C1: counterexample.  The claim says the derived renewable percentage
is exactly 0 whenever the denominator of the percentage is 0; but on the
joined record with `total_renewable_mwh = 500` and a zero denominator
the code produces `+inf` (the `.fillna(0)` only replaces NaN, which
arises solely from `0 / 0`), not 0. -/
theorem renewable_percentage_zero_denom_not_zero :
    renewable_percentage 500 0 = PFloat.inf ∧ renewable_percentage 500 0 ≠ PFloat.val 0 := by
  have hmain : renewable_percentage 500 0 = PFloat.inf := by
    simp only [renewable_percentage, PFloat.div, PFloat.mul, PFloat.fillna]
    norm_num
  exact ⟨hmain, fun h => PFloat.noConfusion (hmain ▸ h)⟩

/-! ## Hourly rollup and three-way join (`_create_merged_dataset`) -/

/-- A raw 5-minute CO2 sample: the `Minutes5UTC` timestamp (seconds
since the epoch), the `PriceArea` code and the `CO2Emission` intensity
in g/kWh. -/
structure CO2Sample where
  minutes5UTC : ℤ
  priceArea : String
  co2Emission : ℚ
deriving DecidableEq

/-- `co2_hourly['hour'] = co2_hourly['datetime'].dt.floor('H')`: a
timestamp floored to the start of its hour. -/
def hourFloor (t : ℤ) : ℤ := 3600 * Int.ediv t 3600

/-- The grouping key of `co2_hourly.groupby(['hour', 'PriceArea'])`:
the hour-floored timestamp together with the price-area code. -/
def co2GroupKey (s : CO2Sample) : ℤ × String := (hourFloor s.minutes5UTC, s.priceArea)

/-- The `CO2Emission` values of the samples falling in one group. -/
def valuesAt (recs : List CO2Sample) (k : ℤ × String) : List ℚ :=
  (recs.filter fun s => decide (co2GroupKey s = k)).map CO2Sample.co2Emission

/-- The arithmetic mean computed by pandas `agg({'CO2Emission': 'mean'})`
on a group's values. -/
def listMean (l : List ℚ) : ℚ := l.sum / l.length

/-- `danish_energy_ml_pipeline.py` lines 154-160: aggregate the
5-minute CO2 samples to hourly grain by grouping on (hour-floored
timestamp, price area) and taking the mean intensity per group.  Pandas
`groupby` only materialises groups that contain at least one record. -/
def rollup_to_hour (recs : List CO2Sample) : List ((ℤ × String) × ℚ) :=
  ((recs.map co2GroupKey).dedup).map fun k => (k, listMean (valuesAt recs k))

/-- A raw hourly production sample (`renewable_energy_raw`): timestamp,
price area, the eight per-technology MWh columns summed into
`total_renewable_mwh` by the code, and gross consumption. -/
structure RenewSample where
  hourUTC : ℤ
  priceArea : String
  offshoreWindLt100 : ℚ
  offshoreWindGe100 : ℚ
  onshoreWindLt50 : ℚ
  onshoreWindGe50 : ℚ
  solarLt10 : ℚ
  solarGe10Lt40 : ℚ
  solarGe40 : ℚ
  hydro : ℚ
  grossConsumption : ℚ
deriving DecidableEq

/-- `renewable_clean['total_renewable_mwh'] = renewable_clean[renewable_cols].sum(axis=1)`:
the sum of the eight per-technology columns. -/
def totalRenewableMWh (r : RenewSample) : ℚ :=
  r.offshoreWindLt100 + r.offshoreWindGe100 + r.onshoreWindLt50 + r.onshoreWindGe50 +
    r.solarLt10 + r.solarGe10Lt40 + r.solarGe40 + r.hydro

/-- The join key of a production sample: (datetime, PriceArea). -/
def renewKey (r : RenewSample) : ℤ × String := (r.hourUTC, r.priceArea)

/-- A raw hourly price sample (`electricity_prices_raw`): timestamp,
price area and the spot price in EUR. -/
structure PriceSample where
  hourUTC : ℤ
  priceArea : String
  spotPriceEUR : ℚ
deriving DecidableEq

/-- The join key of a price sample: (datetime, PriceArea). -/
def priceKey (p : PriceSample) : ℤ × String := (p.hourUTC, p.priceArea)

/-- One row of the merged dataset produced by `_create_merged_dataset`. -/
structure MergedRec where
  datetime : ℤ
  priceArea : String
  co2Emission : ℚ
  totalRenewable : ℚ
  consumption : ℚ
  spotPriceEur : ℚ
deriving DecidableEq

/-- The join key of a merged row. -/
def mergedKey (m : MergedRec) : ℤ × String := (m.datetime, m.priceArea)

/-- `danish_energy_ml_pipeline.py` lines 173-191: filter the price
stream to the Danish areas DK1/DK2, then inner-merge the hourly CO2
aggregate with the production stream on (datetime, PriceArea), and
inner-merge the result with the filtered price stream on the same key.
A pandas inner merge emits one output row per pair of input rows that
agree on the key. -/
def merge_streams (co2agg : List ((ℤ × String) × ℚ)) (renw : List RenewSample)
    (price : List PriceSample) : List MergedRec :=
  let priceDanish := price.filter fun p => decide (p.priceArea = "DK1" ∨ p.priceArea = "DK2")
  let m1 := co2agg.flatMap fun c =>
    (renw.filter fun r => decide (renewKey r = c.1)).map fun r =>
      (c.1, c.2, totalRenewableMWh r, r.grossConsumption)
  m1.flatMap fun x =>
    (priceDanish.filter fun p => decide (priceKey p = x.1)).map fun p =>
      ⟨x.1.1, x.1.2, x.2.1, x.2.2.1, x.2.2.2, p.spotPriceEUR⟩

/-- `_create_merged_dataset`: hourly rollup of the CO2 stream followed
by the strict three-way inner join. -/
def create_merged_dataset (co2 : List CO2Sample) (renw : List RenewSample)
    (price : List PriceSample) : List MergedRec :=
  merge_streams (rollup_to_hour co2) renw price

/-- C1: amended.  The derived renewable percentage equals
`total_renewable_mwh / consumption_mwh * 100` when the denominator is
nonzero; when the denominator is 0 the result is 0 only if the numerator
is also 0 (`0/0` is NaN, replaced by `.fillna(0)`), while a positive
(resp. negative) numerator over 0 yields `+inf` (resp. `-inf`) — no
divide-by-zero fault is raised in any case, the function being total;
and 500 over 1000 yields 50.0. -/
theorem renewable_percentage_characterization :
    (∀ r c : ℚ, renewable_percentage r c =
      if c = 0 then
        (if r = 0 then PFloat.val 0 else if 0 < r then PFloat.inf else PFloat.ninf)
      else PFloat.val (r / c * 100))
    ∧ renewable_percentage 500 1000 = PFloat.val 50 := by
  constructor
  · intro r c
    by_cases hc : c = 0
    · by_cases hr : r = 0
      · simp [renewable_percentage, PFloat.div, PFloat.mul, PFloat.fillna, hc, hr]
      · by_cases hrpos : 0 < r
        · norm_num [renewable_percentage, PFloat.div, PFloat.mul, PFloat.fillna, hc, hr, hrpos]
        · norm_num [renewable_percentage, PFloat.div, PFloat.mul, PFloat.fillna, hc, hr, hrpos]
    · simp [renewable_percentage, PFloat.div, PFloat.mul, PFloat.fillna, hc]
  · norm_num [renewable_percentage, PFloat.div, PFloat.mul, PFloat.fillna]

/-- The output keys of the rollup are exactly the deduplicated group
keys of the input. -/
theorem rollup_to_hour_keys (recs : List CO2Sample) :
    (rollup_to_hour recs).map Prod.fst = (recs.map co2GroupKey).dedup := by
  simp [rollup_to_hour, List.map_map, Function.comp_def]

/-- A group key has samples iff its value list is nonempty. -/
theorem valuesAt_ne_nil_iff (recs : List CO2Sample) (k : ℤ × String) :
    valuesAt recs k ≠ [] ↔ ∃ s ∈ recs, co2GroupKey s = k := by
  simp only [valuesAt, ne_eq, List.map_eq_nil_iff, List.filter_eq_nil_iff,
    decide_eq_true_eq, not_forall]
  constructor
  · rintro ⟨s, hs, hk⟩
    exact ⟨s, hs, not_not.mp hk⟩
  · rintro ⟨s, hs, hk⟩
    exact ⟨s, hs, not_not.mpr hk⟩

/-- C3: the hourly rollup groups the 5-minute CO2 samples by
(hour-floored timestamp, price area); a key appears in the output iff at
least one sample falls in its bucket (so a partial hour still produces a
row and an empty bucket produces no row at all), and every emitted value
is the arithmetic mean — sum divided by count — of the bucket's
intensity values. -/
theorem rollup_to_hour_is_grouped_mean (recs : List CO2Sample) (k : ℤ × String) :
    (k ∈ (rollup_to_hour recs).map Prod.fst ↔ valuesAt recs k ≠ []) ∧
    ∀ v : ℚ, (k, v) ∈ rollup_to_hour recs →
      valuesAt recs k ≠ [] ∧ v = (valuesAt recs k).sum / ((valuesAt recs k).length : ℚ) := by
  have hmem : k ∈ (rollup_to_hour recs).map Prod.fst ↔ valuesAt recs k ≠ [] := by
    rw [rollup_to_hour_keys, List.mem_dedup, valuesAt_ne_nil_iff, List.mem_map]
  refine ⟨hmem, fun v hv => ?_⟩
  simp only [rollup_to_hour, List.mem_map] at hv
  obtain ⟨k', hk', heq⟩ := hv
  cases heq
  refine ⟨?_, rfl⟩
  rw [valuesAt_ne_nil_iff]
  simpa [List.mem_map] using List.mem_dedup.mp hk'

/-- C3 witness: three 5-minute samples (10, 20, 60 g/kWh) inside hour 0
for DK1 — a partial hour — produce the single row with mean 30. -/
theorem rollup_to_hour_is_grouped_mean_witness :
    (((0 : ℤ), "DK1"), (30 : ℚ)) ∈
        rollup_to_hour [⟨0, "DK1", 10⟩, ⟨300, "DK1", 20⟩, ⟨600, "DK1", 60⟩] ∧
      valuesAt [⟨0, "DK1", 10⟩, ⟨300, "DK1", 20⟩, ⟨600, "DK1", 60⟩] ((0 : ℤ), "DK1") ≠ [] ∧
      (30 : ℚ) =
        (valuesAt [⟨0, "DK1", 10⟩, ⟨300, "DK1", 20⟩, ⟨600, "DK1", 60⟩] ((0 : ℤ), "DK1")).sum /
          ((valuesAt [⟨0, "DK1", 10⟩, ⟨300, "DK1", 20⟩, ⟨600, "DK1", 60⟩]
            ((0 : ℤ), "DK1")).length : ℚ) := by
  have hm : (((0 : ℤ), "DK1"), (30 : ℚ)) ∈
      rollup_to_hour [⟨0, "DK1", 10⟩, ⟨300, "DK1", 20⟩, ⟨600, "DK1", 60⟩] := by
    norm_num [rollup_to_hour, valuesAt, listMean, co2GroupKey, hourFloor,
      List.dedup, List.pwFilter]
  exact ⟨hm,
    (rollup_to_hour_is_grouped_mean
      [⟨0, "DK1", 10⟩, ⟨300, "DK1", 20⟩, ⟨600, "DK1", 60⟩] ((0 : ℤ), "DK1")).2 30 hm⟩

/-- Every row of the merged dataset carries a key that is present in
all three input streams. -/
theorem merge_streams_key_mem (co2agg : List ((ℤ × String) × ℚ)) (renw : List RenewSample)
    (price : List PriceSample) (m : MergedRec) (hm : m ∈ merge_streams co2agg renw price) :
    mergedKey m ∈ co2agg.map Prod.fst ∧ mergedKey m ∈ renw.map renewKey ∧
      mergedKey m ∈ price.map priceKey := by
  simp only [merge_streams, List.mem_flatMap, List.mem_map, List.mem_filter,
    decide_eq_true_eq] at hm
  obtain ⟨x, ⟨c, hc, r, ⟨⟨hr, hrk⟩, hx⟩⟩, p, ⟨⟨⟨hp, hpd⟩, hpk⟩, hmeq⟩⟩ := hm
  subst hmeq
  subst hx
  refine ⟨?_, ?_, ?_⟩
  · exact List.mem_map.mpr ⟨c, hc, by simp [mergedKey]⟩
  · exact List.mem_map.mpr ⟨r, hr, by simp [mergedKey, hrk]⟩
  · exact List.mem_map.mpr ⟨p, hp, by simp only [mergedKey] at *; rw [hpk]⟩

/-- C2: the three-way join is a strict inner join — a key absent from
the hourly CO2 stream, from the production stream or from the price
stream contributes no merged fact row at all (no partial or null-padded
facts). -/
theorem merge_streams_strict_inner_join (co2agg : List ((ℤ × String) × ℚ))
    (renw : List RenewSample) (price : List PriceSample) (k : ℤ × String)
    (h : k ∉ co2agg.map Prod.fst ∨ k ∉ renw.map renewKey ∨ k ∉ price.map priceKey) :
    k ∉ (merge_streams co2agg renw price).map mergedKey := by
  intro hk
  obtain ⟨m, hm, hkey⟩ := List.mem_map.mp hk
  obtain ⟨h1, h2, h3⟩ := merge_streams_key_mem co2agg renw price m hm
  rcases h with h | h | h
  · exact h (hkey ▸ h1)
  · exact h (hkey ▸ h2)
  · exact h (hkey ▸ h3)

/-- C2 witness: an hour bucket with production and price data but no
CO2 data yields no merged fact row for that key. -/
theorem merge_streams_strict_inner_join_witness :
    (((0 : ℤ), "DK1") ∉ ([] : List ((ℤ × String) × ℚ)).map Prod.fst) ∧
      ((0 : ℤ), "DK1") ∉
        (merge_streams [] [⟨0, "DK1", 1, 1, 1, 1, 1, 1, 1, 1, 500⟩]
          [⟨0, "DK1", 42⟩]).map mergedKey :=
  ⟨by simp,
    merge_streams_strict_inner_join [] [⟨0, "DK1", 1, 1, 1, 1, 1, 1, 1, 1, 500⟩]
      [⟨0, "DK1", 42⟩] ((0 : ℤ), "DK1") (Or.inl (by simp))⟩

/-! ## Quality battery (`load_data_warehouse.validate_data_quality`) -/

/-- A row of `core.fact_co2_emissions` as seen by the quality checks:
the (possibly NULL) intensity column and the date dimension key. -/
structure FactCo2 where
  co2EmissionGKwh : Option ℚ
  dateKey : ℤ
deriving DecidableEq

/-- A row of `core.fact_energy_production` as seen by the checks. -/
structure FactProduction where
  renewablePercentage : ℚ
deriving DecidableEq

/-- A row of `core.fact_electricity_prices` as seen by the checks. -/
structure FactPrice where
  spotPriceEur : ℚ
deriving DecidableEq

/-- The warehouse tables read by `validate_data_quality`. -/
structure Warehouse where
  factCo2 : List FactCo2
  factProduction : List FactProduction
  factPrice : List FactPrice
  dimDateKeys : List ℤ
deriving DecidableEq

/-- `load_data_warehouse.py` lines 121-184: the fixed battery of data
quality checks.  Each check is a SQL COUNT; SQL three-valued logic makes
a NULL intensity fail every range comparison, so NULL rows are counted
only by the dedicated null check.  The function returns the list of
check results; finding violations only appends counts, it never
raises. -/
def validate_data_quality (w : Warehouse) : List (String × ℕ) :=
  [("null_co2_values", (w.factCo2.filter fun f => f.co2EmissionGKwh.isNone).length),
   ("invalid_co2_values", (w.factCo2.filter fun f =>
      match f.co2EmissionGKwh with
      | some v => decide (v < 0 ∨ 1000 < v)
      | none => false).length),
   ("negative_renewable", (w.factProduction.filter fun f =>
      decide (f.renewablePercentage < 0)).length),
   ("extreme_prices", (w.factPrice.filter fun f =>
      decide (f.spotPriceEur < -1000 ∨ 5000 < f.spotPriceEur)).length),
   ("orphaned_co2_records", (w.factCo2.filter fun f =>
      !(w.dimDateKeys.contains f.dateKey)).length)]

/-- C4: counterexample.  The claim says the battery range-checks the
renewable percentage against [0,100]; but the code only counts negative
values: a warehouse whose single production row has a renewable
percentage of 150 — outside [0,100] — yields a report in which every
check, the renewable check included, counts zero violations. -/
theorem validate_data_quality_misses_high_renewable :
    (100 : ℚ) < 150 ∧
      (validate_data_quality ⟨[], [⟨150⟩], [], []⟩).all (fun c => c.2 = 0) = true := by
  constructor
  · norm_num
  · have h150 : ¬((150 : ℚ) < 0) := by norm_num
    simp [validate_data_quality, h150]

/-- C4: amended.  The quality check returns, without ever raising, a
report of one violation count per check from the fixed battery: null
intensity values, CO2 intensity outside [0,1000], spot price outside
[-1000,5000] EUR, referential integrity of CO2 fact rows against the
date dimension — but for the renewable percentage only negative values
are counted (there is no upper-bound check at 100).  A CO2 intensity of
-5 is counted as one range violation and the report is still produced
normally. -/
theorem validate_data_quality_battery :
    (∀ w : Warehouse,
      validate_data_quality w = [
        ("null_co2_values", w.factCo2.countP fun f => f.co2EmissionGKwh.isNone),
        ("invalid_co2_values", w.factCo2.countP fun f =>
          match f.co2EmissionGKwh with
          | some v => decide (v ∉ Set.Icc (0 : ℚ) 1000)
          | none => false),
        ("negative_renewable", w.factProduction.countP fun f =>
          decide (f.renewablePercentage < 0)),
        ("extreme_prices", w.factPrice.countP fun f =>
          decide (f.spotPriceEur ∉ Set.Icc (-1000 : ℚ) 5000)),
        ("orphaned_co2_records", w.factCo2.countP fun f =>
          !(w.dimDateKeys.contains f.dateKey))])
    ∧ validate_data_quality ⟨[⟨some (-5), 20240101⟩], [], [], [20240101]⟩ =
        [("null_co2_values", 0), ("invalid_co2_values", 1), ("negative_renewable", 0),
         ("extreme_prices", 0), ("orphaned_co2_records", 0)] := by
  have hicc : ∀ v : ℚ, (v < 0 ∨ 1000 < v) ↔ v ∉ Set.Icc (0 : ℚ) 1000 := by
    intro v
    rw [Set.mem_Icc, not_and_or, not_le, not_le]
  have hicc2 : ∀ v : ℚ, (v < -1000 ∨ 5000 < v) ↔ v ∉ Set.Icc (-1000 : ℚ) 5000 := by
    intro v
    rw [Set.mem_Icc, not_and_or, not_le, not_le]
  constructor
  · intro w
    simp only [validate_data_quality, List.countP_eq_length_filter]
    refine congrArg₂ _ ?_ (congrArg₂ _ ?_ (congrArg₂ _ rfl (congrArg₂ _ ?_ rfl)))
    · rfl
    · refine congrArg _ (congrArg _ (List.filter_congr fun f _ => ?_))
      cases f.co2EmissionGKwh with
      | none => rfl
      | some v => simp [hicc v]
    · refine congrArg _ (congrArg _ (List.filter_congr fun f _ => ?_))
      simp [hicc2 f.spotPriceEur]
  · have hneg : ((-5 : ℚ) < 0 ∨ (1000 : ℚ) < -5) := by norm_num
    simp [validate_data_quality, hneg]

/-! ## Extraction entry points (`extract_energy_data.py`) -/

/-- The error taxonomy named by the specification.  No exception type of
this taxonomy exists anywhere in `extract_energy_data.py`; the type is
introduced so that theorems can state that the code never surfaces
either error. -/
inductive PipelineError where
  | configurationError
  | sourceUnavailableError
deriving DecidableEq

/-- The observable outcome of one extractor call: the records of the
returned DataFrame, the number of HTTP requests actually issued, whether
an exception escaped the call, and whether the raw CSV file was
written. -/
structure ExtractResult (α : Type) where
  records : List α
  requests : ℕ
  raised : Bool
  persisted : Bool
deriving DecidableEq

/-- `extract_co2_emissions_data` (lines 124-166) and its three sibling
extractors share this body: a single `session.get` for the window (the
`attempts` oracle maps the index of an issued request to the outcome the
source would give it); on success with records the CSV is written and
the records returned; on success without records an empty frame is
returned; any exception is caught by the blanket `except`, logged, and
an empty frame is returned — there is no retry loop and nothing is
re-raised. -/
def extract_dataset {α : Type} (attempts : ℕ → Except String (List α)) : ExtractResult α :=
  match attempts 0 with
  | .ok recs => ⟨recs, 1, false, !recs.isEmpty⟩
  | .error _ => ⟨[], 1, false, false⟩

/-- `extract_co2_emissions_data`: the CO2 instance of the shared
extractor body. -/
def extract_co2_emissions_data {α : Type} (attempts : ℕ → Except String (List α)) :
    ExtractResult α :=
  extract_dataset attempts

/-- `get_dataset_list` (lines 55-78): one request for the dataset
catalogue; an exception is caught and an empty list returned. -/
def get_dataset_list {α : Type} (attempts : ℕ → Except String (List α)) : ExtractResult α :=
  match attempts 0 with
  | .ok recs => ⟨recs, 1, false, true⟩
  | .error _ => ⟨[], 1, false, false⟩

/-- The run summary assembled by `run_full_extraction`. -/
structure ExtractionSummary where
  electricityBalance : ℕ
  co2Emissions : ℕ
  renewableEnergy : ℕ
  electricityPrices : ℕ
  totalRecords : ℕ
deriving DecidableEq

/-- `run_full_extraction` (lines 256-293): fetches the dataset list and
then runs the four extractors in sequence for the window; the window
bounds are passed through to the source but never compared or validated;
the summary counts the records of each dataset.  The `Except` layer
records that no error of the specification's taxonomy is ever
surfaced. -/
def run_full_extraction {α : Type} (startDate endDate : ℤ)
    (datasetListSrc elecSrc co2Src renwSrc priceSrc : ℕ → Except String (List α)) :
    Except PipelineError ExtractionSummary × ℕ :=
  let dl := get_dataset_list datasetListSrc
  let e := extract_dataset elecSrc
  let c := extract_co2_emissions_data co2Src
  let r := extract_dataset renwSrc
  let p := extract_dataset priceSrc
  (.ok ⟨e.records.length, c.records.length, r.records.length, p.records.length,
      e.records.length + c.records.length + r.records.length + p.records.length⟩,
    dl.requests + e.requests + c.requests + r.requests + p.requests)

/-- Every extractor issues exactly one request, whatever the source
does. -/
theorem extract_dataset_requests {α : Type} (src : ℕ → Except String (List α)) :
    (extract_dataset src).requests = 1 := by
  unfold extract_dataset
  cases src 0 <;> rfl

/-- The catalogue fetch issues exactly one request. -/
theorem get_dataset_list_requests {α : Type} (src : ℕ → Except String (List α)) :
    (get_dataset_list src).requests = 1 := by
  unfold get_dataset_list
  cases src 0 <;> rfl

/-- C5: counterexample.  The claim says a transient failure is retried
(3 attempts) and exhaustion raises `SourceUnavailableError`; but on a
source that fails every attempt the CO2 extractor issues exactly one
request, raises nothing, and returns an empty dataset. -/
theorem extract_co2_no_retry_no_raise :
    (extract_co2_emissions_data (fun _ : ℕ => (.error "connection refused" : Except String (List ℕ)))).requests = 1 ∧
      (extract_co2_emissions_data (fun _ : ℕ => (.error "connection refused" : Except String (List ℕ)))).raised = false ∧
      (extract_co2_emissions_data (fun _ : ℕ => (.error "connection refused" : Except String (List ℕ)))).records = [] := by
  refine ⟨rfl, rfl, rfl⟩

/-- C5: amended.  A network/HTTP failure is not retried: the extractor
issues a single request, catches the failure and returns an empty
dataset instead of raising `SourceUnavailableError`; the failure is
confined to that dataset — `run_full_extraction` still processes the
other datasets, reports their counts, and the files they persisted
remain written. -/
theorem extract_failure_isolated_to_dataset (msg : String) (sd ed : ℤ)
    (recsE recsR recsP : List ℕ) (dl : ℕ → Except String (List ℕ)) :
    extract_co2_emissions_data (fun _ : ℕ => (.error msg : Except String (List ℕ))) =
        ⟨[], 1, false, false⟩ ∧
      (run_full_extraction sd ed dl (fun _ => .ok recsE) (fun _ => .error msg)
          (fun _ => .ok recsR) (fun _ => .ok recsP)).1 =
        .ok ⟨recsE.length, 0, recsR.length, recsP.length,
          recsE.length + 0 + recsR.length + recsP.length⟩ ∧
      (extract_dataset (fun _ : ℕ => (.ok recsE : Except String (List ℕ)))).persisted =
        !recsE.isEmpty := by
  refine ⟨rfl, rfl, rfl⟩

/-- C8: counterexample.  The claim says a window with
`start_date > end_date` fails with `ConfigurationError` before any I/O;
but on the inverted window 2024-12-31 .. 2020-01-01 the pipeline issues
its five source requests and returns a normal summary — no
`ConfigurationError` is raised and I/O is performed. -/
theorem run_full_extraction_no_window_validation :
    (20200101 : ℤ) < 20241231 ∧
      (run_full_extraction 20241231 20200101 (fun _ : ℕ => (.ok [] : Except String (List ℕ)))
          (fun _ => .ok []) (fun _ => .ok []) (fun _ => .ok []) (fun _ => .ok [])).1 ≠
        .error PipelineError.configurationError ∧
      (run_full_extraction 20241231 20200101 (fun _ : ℕ => (.ok [] : Except String (List ℕ)))
          (fun _ => .ok []) (fun _ => .ok []) (fun _ => .ok []) (fun _ => .ok [])).2 = 5 := by
  refine ⟨by norm_num, ?_, rfl⟩
  intro h
  exact Except.noConfusion h

/-- C8: amended.  `run_full_extraction` performs no window validation at
all: for every window — the inverted ones included — it issues exactly
five source requests (catalogue plus four datasets) and returns a normal
summary; `ConfigurationError` does not exist in the code and is never
surfaced. -/
theorem run_full_extraction_ignores_window {α : Type} (sd ed : ℤ)
    (dl s1 s2 s3 s4 : ℕ → Except String (List α)) :
    (∃ s : ExtractionSummary, (run_full_extraction sd ed dl s1 s2 s3 s4).1 = .ok s) ∧
      (run_full_extraction sd ed dl s1 s2 s3 s4).2 = 5 := by
  constructor
  · exact ⟨_, rfl⟩
  · show (get_dataset_list dl).requests + (extract_dataset s1).requests +
      (extract_co2_emissions_data s2).requests + (extract_dataset s3).requests +
      (extract_dataset s4).requests = 5
    rw [get_dataset_list_requests, extract_dataset_requests,
      extract_co2_emissions_data, extract_dataset_requests, extract_dataset_requests,
      extract_dataset_requests]

/-! ## Raw staging dedup (spec-modelled SQL loading functions) -/

/-- A raw staging row: natural key (timestamp, price area code, source
dataset) plus its measurement payload. -/
structure RawRecord where
  timestamp : ℤ
  priceArea : String
  dataset : String
  payload : ℚ
deriving DecidableEq

/-- The composite natural key of a raw staging row. -/
def rawKey (r : RawRecord) : ℤ × String × String := (r.timestamp, r.priceArea, r.dataset)

/-- Whether a staging table already holds a row with the given key. -/
def hasRawKey (st : List RawRecord) (k : ℤ × String × String) : Bool :=
  st.any fun x => decide (rawKey x = k)

/-- Modelled from the spec: the SQL loading functions
`raw.load_co2_emissions_from_csv`, `raw.load_renewable_energy_from_csv`
and `raw.load_electricity_prices_from_csv` invoked by
`load_csv_to_raw_table` are not in the source tree; per the spec,
ingestion persists fetched records to raw staging, "skipping any record
whose (timestamp, price-area) key already exists in staging for that
dataset".  Each incoming row is appended only if its key is absent. -/
def load_to_raw_staging (staging incoming : List RawRecord) : List RawRecord :=
  incoming.foldl (fun st r => if hasRawKey st (rawKey r) then st else st ++ [r]) staging


/-- Unfolding one load step. -/
theorem load_to_raw_staging_cons (st : List RawRecord) (r : RawRecord)
    (rest : List RawRecord) :
    load_to_raw_staging st (r :: rest) =
      load_to_raw_staging (if hasRawKey st (rawKey r) then st else st ++ [r]) rest := rfl

/-- A key is in the staging table iff `hasRawKey` says so. -/
theorem hasRawKey_iff (st : List RawRecord) (k : ℤ × String × String) :
    hasRawKey st k = true ↔ k ∈ st.map rawKey := by
  simp only [hasRawKey, List.any_eq_true, decide_eq_true_eq, List.mem_map]

/-- Loading never removes a key already present. -/
theorem hasRawKey_load_mono (incoming : List RawRecord) (st : List RawRecord)
    (k : ℤ × String × String) (h : hasRawKey st k = true) :
    hasRawKey (load_to_raw_staging st incoming) k = true := by
  induction incoming generalizing st with
  | nil => exact h
  | cons r rest ih =>
    rw [load_to_raw_staging_cons]
    by_cases hcase : hasRawKey st (rawKey r) = true
    · rw [if_pos hcase]
      exact ih st h
    · rw [if_neg hcase]
      refine ih (st ++ [r]) ?_
      rw [hasRawKey_iff] at h ⊢
      simp only [List.map_append, List.mem_append]
      exact Or.inl h

/-- After a load, every incoming key is present. -/
theorem hasRawKey_load_incoming (incoming : List RawRecord) (st : List RawRecord)
    (r : RawRecord) (hr : r ∈ incoming) :
    hasRawKey (load_to_raw_staging st incoming) (rawKey r) = true := by
  induction incoming generalizing st with
  | nil => cases hr
  | cons a rest ih =>
    rw [load_to_raw_staging_cons]
    rcases List.mem_cons.mp hr with h | h
    · subst h
      by_cases hcase : hasRawKey st (rawKey r) = true
      · rw [if_pos hcase]
        exact hasRawKey_load_mono rest st (rawKey r) hcase
      · rw [if_neg hcase]
        refine hasRawKey_load_mono rest (st ++ [r]) (rawKey r) ?_
        rw [hasRawKey_iff]
        simp
    · exact ih (if hasRawKey st (rawKey a) then st else st ++ [a]) h

/-- Loading rows whose keys are all present is a no-op. -/
theorem load_to_raw_staging_all_present (incoming : List RawRecord) (st : List RawRecord)
    (h : ∀ r ∈ incoming, hasRawKey st (rawKey r) = true) :
    load_to_raw_staging st incoming = st := by
  induction incoming generalizing st with
  | nil => rfl
  | cons a rest ih =>
    rw [load_to_raw_staging_cons, if_pos (h a (List.mem_cons_self a rest))]
    exact ih st fun r hr => h r (List.mem_cons_of_mem a hr)

/-- C6: raw staging keeps at most one row per (timestamp, price-area,
dataset) key: loading preserves key uniqueness (a record whose key
already exists is skipped, so no two staging rows ever share a key), and
re-ingesting the same window a second time changes nothing. -/
theorem load_to_raw_staging_dedup (staging incoming : List RawRecord)
    (h : (staging.map rawKey).Nodup) :
    ((load_to_raw_staging staging incoming).map rawKey).Nodup ∧
      load_to_raw_staging (load_to_raw_staging staging incoming) incoming =
        load_to_raw_staging staging incoming := by
  constructor
  · induction incoming generalizing staging with
    | nil => exact h
    | cons a rest ih =>
      rw [load_to_raw_staging_cons]
      by_cases hcase : hasRawKey staging (rawKey a) = true
      · rw [if_pos hcase]
        exact ih staging h
      · rw [if_neg hcase]
        refine ih (staging ++ [a]) ?_
        simp only [List.map_append, List.map_cons, List.map_nil]
        refine List.Nodup.append h (List.nodup_singleton _) ?_
        intro k hk hk'
        rcases List.mem_singleton.mp hk' with rfl
        exact hcase ((hasRawKey_iff staging (rawKey a)).mpr hk)
  · exact load_to_raw_staging_all_present incoming _
      fun r hr => hasRawKey_load_incoming incoming staging r hr

/-- C6 witness: a staging table holding one CO2 row, re-ingested with an
overlapping batch repeating that row plus one new row, stays key-unique,
and ingesting the same batch a second time is a no-op. -/
theorem load_to_raw_staging_dedup_witness :
    (([⟨0, "DK1", "co2", 5⟩] : List RawRecord).map rawKey).Nodup ∧
      ((load_to_raw_staging [⟨0, "DK1", "co2", 5⟩]
        [⟨0, "DK1", "co2", 5⟩, ⟨3600, "DK1", "co2", 6⟩]).map rawKey).Nodup ∧
      load_to_raw_staging
          (load_to_raw_staging [⟨0, "DK1", "co2", 5⟩]
            [⟨0, "DK1", "co2", 5⟩, ⟨3600, "DK1", "co2", 6⟩])
          [⟨0, "DK1", "co2", 5⟩, ⟨3600, "DK1", "co2", 6⟩] =
        load_to_raw_staging [⟨0, "DK1", "co2", 5⟩]
          [⟨0, "DK1", "co2", 5⟩, ⟨3600, "DK1", "co2", 6⟩] := by
  have h := load_to_raw_staging_dedup [⟨0, "DK1", "co2", 5⟩]
    [⟨0, "DK1", "co2", 5⟩, ⟨3600, "DK1", "co2", 6⟩] (by decide)
  exact ⟨by decide, h.1, h.2⟩

/-! ## Fact upsert and pipeline idempotence (spec-modelled ETL) -/

/-- A fact row keyed by the natural key (date key, hour key, price-area
key), carrying the derived metrics of its metric family. -/
structure FactRow where
  dateKey : ℤ
  hourKey : ℤ
  priceAreaKey : ℤ
  metric : ℚ
deriving DecidableEq

/-- The natural key of a fact row. -/
def factKey (f : FactRow) : ℤ × ℤ × ℤ := (f.dateKey, f.hourKey, f.priceAreaKey)

/-- Whether the fact table holds a row with the given natural key. -/
def hasFactKey (t : List FactRow) (k : ℤ × ℤ × ℤ) : Bool :=
  t.any fun x => decide (factKey x = k)

/-- Replace every row carrying the key of `r` by `r`. -/
def replaceFact (t : List FactRow) (r : FactRow) : List FactRow :=
  t.map fun x => if factKey x = factKey r then r else x

/-- Modelled from the spec: the SQL procedure `core.run_etl_pipeline()`
called by `run_etl_pipeline` is not in the source tree; per the spec,
each derived fact row "is written keyed by (date_key, hour_key,
price_area_key); re-running over an already-loaded window replaces prior
values for that key rather than duplicating". -/
def upsert_fact (t : List FactRow) (r : FactRow) : List FactRow :=
  if hasFactKey t (factKey r) then replaceFact t r else t ++ [r]

/-- Upserting a batch of derived fact rows in order. -/
def upsert_facts (t : List FactRow) (rows : List FactRow) : List FactRow :=
  rows.foldl upsert_fact t

/-- Replacement does not change the key column of any row. -/
theorem replaceFact_map_key (t : List FactRow) (r : FactRow) :
    (replaceFact t r).map factKey = t.map factKey := by
  unfold replaceFact
  rw [List.map_map]
  refine List.map_congr_left fun x _ => ?_
  by_cases h : factKey x = factKey r
  · simp [h]
  · simp [h]

/-- Key presence is invariant under replacement. -/
theorem hasFactKey_replaceFact (t : List FactRow) (r : FactRow) (k : ℤ × ℤ × ℤ) :
    hasFactKey (replaceFact t r) k = hasFactKey t k := by
  have h1 : hasFactKey (replaceFact t r) k = true ↔ k ∈ (replaceFact t r).map factKey := by
    simp only [hasFactKey, List.any_eq_true, decide_eq_true_eq, List.mem_map]
  have h2 : hasFactKey t k = true ↔ k ∈ t.map factKey := by
    simp only [hasFactKey, List.any_eq_true, decide_eq_true_eq, List.mem_map]
  rw [replaceFact_map_key] at h1
  cases hc : hasFactKey t k with
  | true => exact h1.mpr (h2.mp hc)
  | false =>
    cases hc2 : hasFactKey (replaceFact t r) k with
    | true => exact absurd (h2.mpr (h1.mp hc2)) (by rw [hc]; exact Bool.false_ne_true)
    | false => rfl

/-- An upsert never removes a key. -/
theorem hasFactKey_upsert_mono (t : List FactRow) (r : FactRow) (k : ℤ × ℤ × ℤ)
    (h : hasFactKey t k = true) : hasFactKey (upsert_fact t r) k = true := by
  unfold upsert_fact
  by_cases hc : hasFactKey t (factKey r) = true
  · rw [if_pos hc, hasFactKey_replaceFact]
    exact h
  · rw [if_neg hc]
    simp only [hasFactKey, List.any_eq_true] at h ⊢
    obtain ⟨x, hx, hk⟩ := h
    exact ⟨x, List.mem_append_left _ hx, hk⟩

/-- After an upsert the upserted row's key is present. -/
theorem hasFactKey_upsert_self (t : List FactRow) (r : FactRow) :
    hasFactKey (upsert_fact t r) (factKey r) = true := by
  unfold upsert_fact
  by_cases hc : hasFactKey t (factKey r) = true
  · rw [if_pos hc, hasFactKey_replaceFact]
    exact hc
  · rw [if_neg hc]
    simp only [hasFactKey, List.any_eq_true]
    exact ⟨r, List.mem_append_right _ (List.mem_singleton_self r), by simp⟩

/-- A batch upsert never removes a key. -/
theorem hasFactKey_upsert_facts_mono (rows : List FactRow) (t : List FactRow)
    (k : ℤ × ℤ × ℤ) (h : hasFactKey t k = true) :
    hasFactKey (upsert_facts t rows) k = true := by
  induction rows generalizing t with
  | nil => exact h
  | cons a rest ih => exact ih (upsert_fact t a) (hasFactKey_upsert_mono t a k h)

/-- After upserting a batch, every key of the batch is present. -/
theorem hasFactKey_upsert_facts (rows : List FactRow) (t : List FactRow)
    (r : FactRow) (hr : r ∈ rows) :
    hasFactKey (upsert_facts t rows) (factKey r) = true := by
  induction rows generalizing t with
  | nil => cases hr
  | cons a rest ih =>
    show hasFactKey (upsert_facts (upsert_fact t a) rest) (factKey r) = true
    rcases List.mem_cons.mp hr with h | h
    · subst h
      exact hasFactKey_upsert_facts_mono rest (upsert_fact t r) (factKey r)
        (hasFactKey_upsert_self t r)
    · exact ih (upsert_fact t a) h

/-- Every row of the table carrying key `k` is exactly `v`. -/
def AllAt (t : List FactRow) (k : ℤ × ℤ × ℤ) (v : FactRow) : Prop :=
  ∀ x ∈ t, factKey x = k → x = v

/-- An upsert aligns every row carrying the upserted key with the new
row. -/
theorem allAt_upsert_self (t : List FactRow) (r : FactRow) :
    AllAt (upsert_fact t r) (factKey r) r := by
  intro x hx hk
  unfold upsert_fact at hx
  by_cases hc : hasFactKey t (factKey r) = true
  · rw [if_pos hc] at hx
    unfold replaceFact at hx
    obtain ⟨y, _, hy⟩ := List.mem_map.mp hx
    by_cases hyk : factKey y = factKey r
    · rw [if_pos hyk] at hy
      exact hy.symm
    · rw [if_neg hyk] at hy
      exact absurd (hy ▸ hk) hyk
  · rw [if_neg hc] at hx
    rcases List.mem_append.mp hx with h | h
    · exfalso
      refine hc ?_
      simp only [hasFactKey, List.any_eq_true, decide_eq_true_eq]
      exact ⟨x, h, hk⟩
    · exact List.mem_singleton.mp h

/-- An upsert with a different key preserves alignment at `k`. -/
theorem allAt_upsert_other (t : List FactRow) (r : FactRow) (k : ℤ × ℤ × ℤ)
    (v : FactRow) (hne : factKey r ≠ k) (h : AllAt t k v) :
    AllAt (upsert_fact t r) k v := by
  intro x hx hk
  unfold upsert_fact at hx
  by_cases hc : hasFactKey t (factKey r) = true
  · rw [if_pos hc] at hx
    unfold replaceFact at hx
    obtain ⟨y, hy, hxy⟩ := List.mem_map.mp hx
    by_cases hyk : factKey y = factKey r
    · rw [if_pos hyk] at hxy
      exact absurd (hxy ▸ hk) hne
    · rw [if_neg hyk] at hxy
      subst hxy
      exact h y hy hk
  · rw [if_neg hc] at hx
    rcases List.mem_append.mp hx with hmem | hmem
    · exact h x hmem hk
    · rcases List.mem_singleton.mp hmem with rfl
      exact absurd hk hne

/-- A batch upsert whose rows all avoid key `k` preserves alignment at
`k`. -/
theorem allAt_upsert_facts_other (rows : List FactRow) (t : List FactRow)
    (k : ℤ × ℤ × ℤ) (v : FactRow) (hne : ∀ r ∈ rows, factKey r ≠ k)
    (h : AllAt t k v) : AllAt (upsert_facts t rows) k v := by
  induction rows generalizing t with
  | nil => exact h
  | cons a rest ih =>
    exact ih (upsert_fact t a) (fun r hr => hne r (List.mem_cons_of_mem a hr))
      (allAt_upsert_other t a k v (hne a (List.mem_cons_self a rest)) h)

/-- After a batch upsert with pairwise-distinct keys, the table is
aligned with the batch: every row carrying the key of a batch row is
that row. -/
theorem allAt_upsert_facts (rows : List FactRow) (t : List FactRow)
    (hnd : (rows.map factKey).Nodup) (r : FactRow) (hr : r ∈ rows) :
    AllAt (upsert_facts t rows) (factKey r) r := by
  induction rows generalizing t with
  | nil => cases hr
  | cons a rest ih =>
    have hnd2 : (rest.map factKey).Nodup := (List.nodup_cons.mp hnd).2
    rcases List.mem_cons.mp hr with h | h
    · subst h
      have hnotin : ∀ x ∈ rest, factKey x ≠ factKey r := by
        intro x hx hkx
        exact (List.nodup_cons.mp hnd).1 (hkx ▸ List.mem_map.mpr ⟨x, hx, rfl⟩)
      exact allAt_upsert_facts_other rest (upsert_fact t r) (factKey r) r hnotin
        (allAt_upsert_self t r)
    · exact ih (upsert_fact t a) hnd2 h

/-- Upserting a row that is already the unique resident of its key is a
no-op. -/
theorem upsert_fact_noop (t : List FactRow) (r : FactRow)
    (hpresent : hasFactKey t (factKey r) = true) (haligned : AllAt t (factKey r) r) :
    upsert_fact t r = t := by
  unfold upsert_fact
  rw [if_pos hpresent]
  unfold replaceFact
  have : ∀ x ∈ t, (if factKey x = factKey r then r else x) = x := by
    intro x hx
    by_cases hk : factKey x = factKey r
    · rw [if_pos hk, haligned x hx hk]
    · rw [if_neg hk]
  rw [List.map_congr_left this]
  simp

/-- Replaying a batch over a table that already holds each batch row at
its key changes nothing. -/
theorem upsert_facts_noop (rows : List FactRow) (t : List FactRow)
    (h : ∀ r ∈ rows, hasFactKey t (factKey r) = true ∧ AllAt t (factKey r) r) :
    upsert_facts t rows = t := by
  induction rows generalizing t with
  | nil => rfl
  | cons a rest ih =>
    show upsert_facts (upsert_fact t a) rest = t
    have ha := h a (List.mem_cons_self a rest)
    rw [upsert_fact_noop t a ha.1 ha.2]
    exact ih t fun r hr => h r (List.mem_cons_of_mem a hr)

/-- C7: running the pipeline a second time over the same window is
idempotent.  The fact rows derived from a window carry pairwise-distinct
natural keys (one row per (date key, hour key, price-area key) triple);
upserting them a second time replaces each prior value with itself, so
the fact-table contents after the second run are identical to the
contents after the first — no duplicate and no drifted rows. -/
theorem upsert_facts_idempotent (t rows : List FactRow)
    (hnd : (rows.map factKey).Nodup) :
    upsert_facts (upsert_facts t rows) rows = upsert_facts t rows := by
  refine upsert_facts_noop rows (upsert_facts t rows) fun r hr => ⟨?_, ?_⟩
  · exact hasFactKey_upsert_facts rows t r hr
  · exact allAt_upsert_facts rows t hnd r hr

/-- C7 witness: loading two fact rows into an empty table twice gives
exactly the contents of loading them once. -/
theorem upsert_facts_idempotent_witness :
    (([⟨20240101, 0, 1, 50⟩, ⟨20240101, 1, 1, 60⟩] : List FactRow).map factKey).Nodup ∧
      upsert_facts (upsert_facts [] [⟨20240101, 0, 1, 50⟩, ⟨20240101, 1, 1, 60⟩])
          [⟨20240101, 0, 1, 50⟩, ⟨20240101, 1, 1, 60⟩] =
        upsert_facts [] [⟨20240101, 0, 1, 50⟩, ⟨20240101, 1, 1, 60⟩] :=
  ⟨by decide,
    upsert_facts_idempotent [] [⟨20240101, 0, 1, 50⟩, ⟨20240101, 1, 1, 60⟩] (by decide)⟩

/-! ## High-price detection (`data_quality_assessment.analyze_electricity_prices`) -/

/-- Insert a value into an ascending-sorted list. -/
def insertSorted (x : ℚ) : List ℚ → List ℚ
  | [] => [x]
  | y :: ys => if x ≤ y then x :: y :: ys else y :: insertSorted x ys

/-- Sort ascending (pandas sorts the values before interpolating a
quantile). -/
def sortAsc (l : List ℚ) : List ℚ := l.foldr insertSorted []

/-- Pandas `Series.quantile(q)` with the default linear interpolation:
with the `n` values sorted ascending and the virtual index
`h = (n-1)*q`, the result interpolates between the values at positions
`⌊h⌋` and `⌊h⌋+1`. -/
def pandasQuantile (l : List ℚ) (q : ℚ) : ℚ :=
  let s := sortAsc l
  let n := s.length
  if n = 0 then 0
  else
    let h : ℚ := ((n : ℚ) - 1) * q
    let i : ℕ := (Int.floor h).toNat
    let lo := s.getD i 0
    let hi := s.getD (i + 1) lo
    lo + (h - (i : ℚ)) * (hi - lo)

/-- `data_quality_assessment.py` line 243:
`high_prices_dkk = df[df['SpotPriceDKK'] > df['SpotPriceDKK'].quantile(0.95)]` —
the rows whose DKK spot price exceeds the 95th percentile of the whole
dataset. -/
def high_price_events (prices : List ℚ) : List ℚ :=
  prices.filter fun p => decide (pandasQuantile prices (95 / 100) < p)

/-- Modelled from the spec, for comparison with the code: the claimed
spike rule `is_price_spike = spot_price_eur > (rolling_baseline *
spike_multiplier)`, where `rolling_baseline` is the trailing-window mean
price for the same price area and `spike_multiplier` a configurable
constant (the spec's example: 3.0). -/
def spec_is_price_spike (trailingWindow : List ℚ) (price multiplier : ℚ) : Prop :=
  listMean trailingWindow * multiplier < price

/-- The 95th percentile of the counterexample dataset. -/
theorem pandasQuantile_example :
    pandasQuantile [100, 100, 100, 100, 100, 250] (95 / 100) = 425 / 2 := by
  have hsort : sortAsc [100, 100, 100, 100, 100, 250] =
      [100, 100, 100, 100, 100, 250] := by
    norm_num [sortAsc, insertSorted]
  have h4 : Int.toNat 4 = 4 := rfl
  have hfl : (Int.floor (((6 : ℚ) - 1) * (95 / 100))).toNat = 4 := by
    rw [show ((6 : ℚ) - 1) * (95 / 100) = 19 / 4 by norm_num]
    rw [show (⌊(19 / 4 : ℚ)⌋ = 4) from by norm_num]
    exact h4
  simp only [pandasQuantile, hsort, List.length_cons, List.length_nil]
  norm_num [hfl, h4]

/-- C9: counterexample.  On the price series
100, 100, 100, 100, 100, 250 for one price area, the code flags 250 as
a high-price event (250 exceeds the dataset-wide 95th percentile,
212.5), yet 250 does not exceed the trailing-window mean (100) times the
spec's multiplier (3.0) — so the code's flag is not the claimed
`spot_price > rolling_baseline * spike_multiplier` predicate. -/
theorem high_price_event_not_spec_spike :
    (250 : ℚ) ∈ high_price_events [100, 100, 100, 100, 100, 250] ∧
      ¬ spec_is_price_spike [100, 100, 100, 100, 100] 250 3 := by
  constructor
  · simp only [high_price_events, List.mem_filter, pandasQuantile_example]
    norm_num
  · simp only [spec_is_price_spike, listMean]
    norm_num

/-- C9: amended.  The only spike detection in the code flags exactly the
rows whose DKK spot price exceeds the 95th percentile — with pandas
linear interpolation — of all the prices of the dataset: a dataset-wide
threshold with no per-area trailing-window baseline and no configurable
multiplier.  In particular, on the series above the single price 250 is
the flagged set. -/
theorem high_price_events_characterization :
    (∀ (prices : List ℚ) (p : ℚ),
      p ∈ high_price_events prices ↔
        p ∈ prices ∧ pandasQuantile prices (95 / 100) < p) ∧
      high_price_events [100, 100, 100, 100, 100, 250] = [250] := by
  constructor
  · intro prices p
    simp [high_price_events, List.mem_filter]
  · simp only [high_price_events, pandasQuantile_example, List.filter]
    norm_num

/-! ## Loader transaction discipline (`DataWarehouseLoader`) -/

/-- One row-level change performed inside a database transaction. -/
inductive DbOp where
  | insertRaw (r : RawRecord)
  | writeFact (f : FactRow)
deriving DecidableEq

/-- A psycopg2 connection: the operations already committed and the
operations pending in the open transaction. -/
structure Conn where
  committed : List DbOp
  pending : List DbOp
deriving DecidableEq

namespace Conn

/-- Executing statements adds their changes to the open transaction. -/
def execOps (c : Conn) (ops : List DbOp) : Conn := ⟨c.committed, c.pending ++ ops⟩

/-- `conn.commit()`: publishes the pending changes. -/
def commit (c : Conn) : Conn := ⟨c.committed ++ c.pending, []⟩

/-- `conn.rollback()`: discards the pending changes. -/
def rollback (c : Conn) : Conn := ⟨c.committed, []⟩

end Conn

/-- `load_data_warehouse.py` lines 47-66, `load_csv_to_raw_table`: the
SQL loading function runs inside the open transaction; its outcome is
either the row changes it performed together with the reported count, or
a database error.  On success the code commits and returns the count; on
any exception it rolls back and re-raises. -/
def load_csv_to_raw_table (c : Conn) (outcome : Except String (List DbOp × ℕ)) :
    Except String ℕ × Conn :=
  match outcome with
  | .ok (ops, n) => (.ok n, (c.execOps ops).commit)
  | .error e => (.error e, c.rollback)

/-- `load_data_warehouse.py` lines 68-88, `run_etl_pipeline`: identical
transaction discipline around `SELECT core.run_etl_pipeline()`; the
outcome carries the ETL's fact-table changes and its textual result. -/
def run_etl_pipeline (c : Conn) (outcome : Except String (List DbOp × String)) :
    Except String String × Conn :=
  match outcome with
  | .ok (ops, msg) => (.ok msg, (c.execOps ops).commit)
  | .error e => (.error e, c.rollback)

/-- C10: per-call atomicity.  Starting from a connection with no open
transaction, a failing `load_csv_to_raw_table` or `run_etl_pipeline`
call rolls back before re-raising — the committed warehouse state is
exactly what it was before the call and no transaction is left open —
while only a successful call commits, publishing exactly the changes of
that call's transaction. -/
theorem loader_transaction_atomicity (c : Conn)
    (o1 : Except String (List DbOp × ℕ)) (o2 : Except String (List DbOp × String))
    (hpend : c.pending = []) :
    ((load_csv_to_raw_table c o1).2.committed =
        match o1 with
        | .ok (ops, _) => c.committed ++ ops
        | .error _ => c.committed) ∧
      (load_csv_to_raw_table c o1).2.pending = [] ∧
      ((load_csv_to_raw_table c o1).1 =
        match o1 with
        | .ok (_, n) => .ok n
        | .error e => .error e) ∧
      ((run_etl_pipeline c o2).2.committed =
        match o2 with
        | .ok (ops, _) => c.committed ++ ops
        | .error _ => c.committed) ∧
      (run_etl_pipeline c o2).2.pending = [] ∧
      ((run_etl_pipeline c o2).1 =
        match o2 with
        | .ok (_, msg) => .ok msg
        | .error e => .error e) := by
  obtain ⟨comm, pend⟩ := c
  subst hpend
  refine ⟨?_, ?_, ?_, ?_, ?_, ?_⟩ <;>
    rcases o1 with e | ⟨ops, n⟩ <;> rcases o2 with e2 | ⟨ops2, msg⟩ <;>
      simp [load_csv_to_raw_table, run_etl_pipeline, Conn.execOps, Conn.commit, Conn.rollback]

/-- C10 witness: a failing CSV load on a clean connection with one
committed row leaves that committed row untouched, re-raises, and a
succeeding ETL call commits its changes. -/
theorem loader_transaction_atomicity_witness :
    (Conn.mk [DbOp.insertRaw ⟨0, "DK1", "co2", 5⟩] []).pending = [] ∧
      (load_csv_to_raw_table (Conn.mk [DbOp.insertRaw ⟨0, "DK1", "co2", 5⟩] [])
        (.error "permission denied")).2.committed =
        [DbOp.insertRaw ⟨0, "DK1", "co2", 5⟩] ∧
      (run_etl_pipeline (Conn.mk [DbOp.insertRaw ⟨0, "DK1", "co2", 5⟩] [])
        (.ok ([DbOp.writeFact ⟨20240101, 0, 1, 50⟩], "ETL Pipeline completed"))).2.committed =
        [DbOp.insertRaw ⟨0, "DK1", "co2", 5⟩, DbOp.writeFact ⟨20240101, 0, 1, 50⟩] := by
  have h := loader_transaction_atomicity (Conn.mk [DbOp.insertRaw ⟨0, "DK1", "co2", 5⟩] [])
    (.error "permission denied")
    (.ok ([DbOp.writeFact ⟨20240101, 0, 1, 50⟩], "ETL Pipeline completed")) rfl
  exact ⟨rfl, h.1, h.2.2.2.1⟩
